import Mathlib

/-!
# Verification of the layered image compositor

Shallow embedding of the compositing / transform / interaction core of the
"Image Maker Studio" layered image editor, together with proofs that settle
the specification claims C1-C10 against the code.

The embedding follows the JavaScript source: `drawLayers`, `updateLayerCache`
and `generateMipmaps` from the main module, the split reducers
(`layersReducer` / `canvasStateReducer`), the geometry helpers
(`_constrainPan`, `getHandleWorldPosition`, `getRotatedBoundingBox`,
`isPointInMovieLayer`, `isPixelOpaqueAtPoint`), the interaction handlers
(`handleMovieInteractionStart`/`Move`), the background re-layout in
`setBackground`, and the worker-side `renderLayer`.
Numeric values are modelled as rationals where the source only does field
arithmetic, and as reals where the source calls `Math.cos` / `Math.sin` /
`Math.sqrt`.
-/

namespace Compositor

/-! ## C1: draw order of `drawLayers`

`drawLayers(ctx, layers)` iterates `for (let i = layers.length - 1; i >= 0; i--)`
and performs one per-layer draw step at each index.  We embed the loop
generically over the surface type `S` and the per-layer draw effect
`drawOne : S → L → S` (which internally rebuilds the cache and skips empty
caches; its internals are irrelevant to the iteration-order claim). -/

/-- The countdown loop of `drawLayers`: `drawLayersLoop drawOne layers n s`
performs the draw steps for indices `n-1, n-2, …, 0` in that order,
exactly like `for (let i = layers.length - 1; i >= 0; i--)` begun at
`i = n - 1`. An out-of-range index is a no-op (the source never hits one). -/
def drawLayersLoop {S L : Type} (drawOne : S → L → S) (layers : List L) :
    Nat → S → S
  | 0, s => s
  | Nat.succ i, s =>
    drawLayersLoop drawOne layers i
      (match layers.get? i with
       | some l => drawOne s l
       | none => s)

/-- `drawLayers` from the source: run the countdown loop starting at the
last index of the layer array. -/
def drawLayers {S L : Type} (drawOne : S → L → S) (layers : List L) (s : S) : S :=
  drawLayersLoop drawOne layers layers.length s

/-- Modelled from the spec wording of the z-order invariant: compositing the
layers "in array order with index 0 topmost" paints the tail of the list
first (the layers underneath) and then paints the head on top of the result. -/
def compositeTopFirst {S L : Type} (drawOne : S → L → S) (s : S) :
    List L → S
  | [] => s
  | l :: ls => drawOne (compositeTopFirst drawOne s ls) l

theorem compositeTopFirst_append_singleton {S L : Type}
    (drawOne : S → L → S) (s : S) (xs : List L) (x : L) :
    compositeTopFirst drawOne s (xs ++ [x]) =
      compositeTopFirst drawOne (drawOne s x) xs := by
  induction xs with
  | nil => rfl
  | cons y ys ih => simp [compositeTopFirst, ih]

theorem drawLayersLoop_eq_compositeTopFirst {S L : Type}
    (drawOne : S → L → S) (layers : List L) :
    ∀ n, n ≤ layers.length → ∀ s,
      drawLayersLoop drawOne layers n s =
        compositeTopFirst drawOne s (layers.take n) := by
  intro n
  induction n with
  | zero => intro _ s; rfl
  | succ i ih =>
    intro hn s
    have hi : i < layers.length := Nat.lt_of_succ_le hn
    have hget : layers[i]? = some layers[i] := List.getElem?_eq_getElem hi
    have htake : layers.take (i + 1) = layers.take i ++ [layers[i]] := by
      rw [List.take_succ, hget]
      rfl
    rw [htake, compositeTopFirst_append_singleton]
    have := ih (Nat.le_of_succ_le hn) (drawOne s layers[i])
    simpa [drawLayersLoop, List.get?_eq_getElem?, hget] using this

theorem compositeTopFirst_trace {L : Type} (s : List L) (ls : List L) :
    compositeTopFirst (fun (t : List L) (l : L) => t ++ [l]) s ls =
      s ++ ls.reverse := by
  induction ls generalizing s with
  | nil => simp [compositeTopFirst]
  | cons x xs ih => simp [compositeTopFirst, ih]

/-- C1. `drawLayers` iterates the layer array from the last index down to 0,
so for every layer array the composited output equals compositing the layers
in array order with index 0 on top (`compositeTopFirst`); in particular,
instantiating the surface with an event trace shows the index-0 layer is
drawn last. -/
theorem drawLayers_eq_compositeTopFirst {S L : Type}
    (drawOne : S → L → S) (layers : List L) (s : S) :
    drawLayers drawOne layers s = compositeTopFirst drawOne s layers ∧
      drawLayers (fun (t : List L) (l : L) => t ++ [l]) layers [] =
        layers.reverse := by
  constructor
  · simpa using
      drawLayersLoop_eq_compositeTopFirst drawOne layers layers.length le_rfl s
  · have h := drawLayersLoop_eq_compositeTopFirst
      (fun (t : List L) (l : L) => t ++ [l]) layers layers.length le_rfl []
    simp only [drawLayers, List.take_length] at h ⊢
    rw [h, compositeTopFirst_trace]
    simp

/-! ## C4: `_constrainPan` -/

/-- A pan offset, as the `{x, y}` object returned by `_constrainPan`. -/
structure Pan where
  x : ℚ
  y : ℚ
deriving DecidableEq, Repr

/-- `_constrainPan(panX, panY, scale)` from the source, with the movie-canvas
dimensions made explicit (the source reads them from `this.dom.movieCanvas`;
its first guard returns `(0,0)` when the canvas is missing or has zero
width). -/
def _constrainPan (canvasWidth canvasHeight panX panY scale : ℚ) : Pan :=
  if canvasWidth = 0 then { x := 0, y := 0 }
  else if scale < 1 then
    { x := (canvasWidth - canvasWidth * scale) / 2
      y := (canvasHeight - canvasHeight * scale) / 2 }
  else
    let maxXOffset := canvasWidth * scale - canvasWidth
    let maxYOffset := canvasHeight * scale - canvasHeight
    { x := max (-maxXOffset) (min panX 0)
      y := max (-maxYOffset) (min panY 0) }

/-- C4. On a `W×H` canvas with `W ≠ 0`: for `scale < 1` the constrained pan
is exactly the centering offset regardless of the input pan; for `scale ≥ 1`
it is the input clamped per axis to `[-(dim*scale - dim), 0]`, and in
particular the clamped x always satisfies `-(W*scale - W) ≤ x ≤ 0`. -/
theorem _constrainPan_spec (W H panX panY scale : ℚ) (hW : W ≠ 0) :
    (scale < 1 →
      _constrainPan W H panX panY scale =
        { x := (W - W * scale) / 2, y := (H - H * scale) / 2 }) ∧
    (1 ≤ scale →
      _constrainPan W H panX panY scale =
        { x := max (-(W * scale - W)) (min panX 0)
          y := max (-(H * scale - H)) (min panY 0) } ∧
      -(W * scale - W) ≤ (_constrainPan W H panX panY scale).x ∧
      (0 < W → (_constrainPan W H panX panY scale).x ≤ 0)) := by
  refine ⟨fun hs => ?_, fun hs => ?_⟩
  · simp [_constrainPan, hW, hs]
  · have hns : ¬ scale < 1 := not_lt.mpr hs
    refine ⟨by simp [_constrainPan, hW, hns], ?_, ?_⟩
    · simp [_constrainPan, hW, hns]
    · intro hWpos
      have hoff : 0 ≤ W * scale - W := by nlinarith
      have hval : _constrainPan W H panX panY scale =
          { x := max (-(W * scale - W)) (min panX 0)
            y := max (-(H * scale - H)) (min panY 0) } := by
        simp [_constrainPan, hW, hns]
      rw [hval]
      exact max_le (by linarith) (min_le_right _ _)

/-- Witness for C4 at the spec's own example: scale 2 on a 1000×800 canvas
with a wild input pan, and scale 1/2 forcing the centering offset. -/
theorem _constrainPan_spec_witness :
    _constrainPan 1000 800 (-5000) 300 (1/2) = { x := 250, y := 200 } ∧
    _constrainPan 1000 800 (-5000) 300 2 = { x := -1000, y := 0 } ∧
    -(1000 * 2 - 1000) ≤ (_constrainPan 1000 800 (-5000) 300 2).x ∧
    (_constrainPan 1000 800 (-5000) 300 2).x ≤ 0 := by
  have h1 := _constrainPan_spec 1000 800 (-5000) 300 (1/2) (by norm_num)
  have h2 := _constrainPan_spec 1000 800 (-5000) 300 2 (by norm_num)
  refine ⟨?_, ?_, ?_, ?_⟩
  · rw [h1.1 (by norm_num)]
    simp only [Pan.mk.injEq]
    norm_num
  · rw [(h2.2 (by norm_num)).1]
    simp only [Pan.mk.injEq]
    constructor <;> norm_num [max_def, min_def]
  · exact (h2.2 (by norm_num)).2.1
  · exact (h2.2 (by norm_num)).2.2 (by norm_num)

end Compositor

namespace Compositor

/-! ## C8: project rotation and background canvas dimensions -/

/-- The `PROJECT_ROTATED` case of `canvasStateReducer`:
`((projectRotation || 0) + 90) % 360`. -/
def projectRotatedStep (projectRotation : ℕ) : ℕ := (projectRotation + 90) % 360

/-- `Math.round` of JavaScript on nonnegative inputs: `⌊q + 1/2⌋`. -/
def jsRound (q : ℚ) : ℤ := ⌊q + 1/2⌋

/-- Master dimension selection in `setBackground`: the background's natural
width/height, swapped when `projectRotation` is 90 or 270 (`isTilted`). -/
def masterDims (bgW bgH rot : ℕ) : ℕ × ℕ :=
  if rot = 90 ∨ rot = 270 then (bgH, bgW) else (bgW, bgH)

/-- Canvas dimension computation in `setBackground`: start from the master
dimensions, cap the width at `MAX_CANVAS_WIDTH = 1920` preserving the aspect
ratio, and round both dimensions. -/
def canvasDims (w h : ℕ) : ℤ × ℤ :=
  if 1920 < (w : ℚ) then
    (jsRound 1920, jsRound ((1920 : ℚ) / ((w : ℚ) / (h : ℚ))))
  else (jsRound (w : ℚ), jsRound (h : ℚ))

/-- Background canvas dimensions produced by `setBackground` for a background
of natural size `bgW×bgH` under project rotation `rot`. -/
def setBackgroundCanvasDims (bgW bgH rot : ℕ) : ℤ × ℤ :=
  canvasDims (masterDims bgW bgH rot).1 (masterDims bgW bgH rot).2

theorem jsRound_natCast (n : ℕ) : jsRound (n : ℚ) = (n : ℤ) := by
  unfold jsRound
  refine Int.floor_eq_iff.mpr ⟨?_, ?_⟩
  · push_cast
    linarith
  · push_cast
    linarith

/-- C8 counterexample. For a 3000×1000 background the width cap
(`MAX_CANVAS_WIDTH = 1920`) breaks the claimed swap: at rotation 0 the canvas
is 1920×640, at rotation 90 it is 1000×3000, which is not the swap
(640, 1920) of the rotation-0 canvas. -/
theorem setBackgroundCanvasDims_no_swap_at_3000x1000 :
    setBackgroundCanvasDims 3000 1000 0 = (1920, 640) ∧
    setBackgroundCanvasDims 3000 1000 90 = (1000, 3000) ∧
    ((setBackgroundCanvasDims 3000 1000 90).1,
      (setBackgroundCanvasDims 3000 1000 90).2) ≠
      ((setBackgroundCanvasDims 3000 1000 0).2,
       (setBackgroundCanvasDims 3000 1000 0).1) := by
  have h0 : setBackgroundCanvasDims 3000 1000 0 = (1920, 640) := by
    simp only [setBackgroundCanvasDims, masterDims, canvasDims]
    norm_num [jsRound]
  have h90 : setBackgroundCanvasDims 3000 1000 90 = (1000, 3000) := by
    simp only [setBackgroundCanvasDims, masterDims, canvasDims]
    norm_num [jsRound]
  refine ⟨h0, h90, ?_⟩
  rw [h0, h90]
  norm_num

/-- C8 (amended). Each `PROJECT_ROTATED` adds 90 modulo 360, cycling
90→180→270→0 and returning every rotation below 360 to itself after four
applications; and for backgrounds whose dimensions do not exceed the
`MAX_CANVAS_WIDTH = 1920` cap, the background canvas swaps width and height
exactly at rotations 90 and 270 (at 180 it equals the unrotated canvas). -/
theorem projectRotation_cycle_and_swap (bgW bgH : ℕ)
    (hW : bgW ≤ 1920) (hH : bgH ≤ 1920) :
    projectRotatedStep 0 = 90 ∧ projectRotatedStep 90 = 180 ∧
    projectRotatedStep 180 = 270 ∧ projectRotatedStep 270 = 0 ∧
    (∀ r : ℕ, r < 360 →
      projectRotatedStep (projectRotatedStep
        (projectRotatedStep (projectRotatedStep r))) = r) ∧
    setBackgroundCanvasDims bgW bgH 90 =
      ((setBackgroundCanvasDims bgW bgH 0).2,
       (setBackgroundCanvasDims bgW bgH 0).1) ∧
    setBackgroundCanvasDims bgW bgH 270 =
      ((setBackgroundCanvasDims bgW bgH 0).2,
       (setBackgroundCanvasDims bgW bgH 0).1) ∧
    setBackgroundCanvasDims bgW bgH 180 = setBackgroundCanvasDims bgW bgH 0 := by
  have hWq : ¬ (1920 : ℚ) < (bgW : ℚ) := by
    push_neg
    exact_mod_cast hW
  have hHq : ¬ (1920 : ℚ) < (bgH : ℚ) := by
    push_neg
    exact_mod_cast hH
  refine ⟨rfl, rfl, rfl, rfl, fun r hr => ?_, ?_, ?_, ?_⟩
  · simp only [projectRotatedStep]
    omega
  · simp [setBackgroundCanvasDims, masterDims, canvasDims, hWq, hHq, jsRound_natCast]
  · simp [setBackgroundCanvasDims, masterDims, canvasDims, hWq, hHq, jsRound_natCast]
  · simp [setBackgroundCanvasDims, masterDims, canvasDims, hWq, hHq, jsRound_natCast]

/-- Witness for C8 at a 1600×1000 background: rotation cycle and exact
width/height swap at rotation 90. -/
theorem projectRotation_cycle_and_swap_witness :
    (1600 : ℕ) ≤ 1920 ∧ (1000 : ℕ) ≤ 1920 ∧
    setBackgroundCanvasDims 1600 1000 90 = (1000, 1600) ∧
    setBackgroundCanvasDims 1600 1000 0 = (1600, 1000) ∧
    projectRotatedStep (projectRotatedStep (projectRotatedStep
      (projectRotatedStep 90))) = 90 := by
  have h := projectRotation_cycle_and_swap 1600 1000 (by norm_num) (by norm_num)
  have h0 : setBackgroundCanvasDims 1600 1000 0 = (1600, 1000) := by
    simp only [setBackgroundCanvasDims, masterDims, canvasDims]
    norm_num [jsRound]
  refine ⟨by norm_num, by norm_num, ?_, h0, h.2.2.2.2.1 90 (by norm_num)⟩
  rw [h.2.2.2.2.2.1, h0]

end Compositor

namespace Compositor

/-! ## C10: frame effect of the layer-editing reducer actions

Embedding of `layersReducer` / `canvasStateReducer` for the four cited
actions `LAYER_TRANSFORMED`, `LAYER_PROPERTY_CHANGED`, `LAYER_SHADOW_CHANGED`
and `LAYER_BORDER_CHANGED`.  Layer fields are the ones the source stores and
these actions touch; the dynamic `[property]: value` assignment is embedded
as an enumeration of the property keys actually dispatched in the source. -/

/-- `layer.shadow`: `{enabled, color, blur, offsetX, offsetY}`. -/
structure Shadow where
  enabled : Bool
  color : String
  blur : ℚ
  offsetX : ℚ
  offsetY : ℚ
deriving DecidableEq, Repr

/-- `layer.border`: `{enabled, color, width}`. -/
structure Border where
  enabled : Bool
  color : String
  width : ℚ
deriving DecidableEq, Repr

/-- `layer.cache`: `{canvas, isValid}`; the canvas is its pixel dimensions or
`none` when the slot is empty. -/
structure CacheSlot where
  canvas : Option (ℚ × ℚ)
  isValid : Bool
deriving DecidableEq, Repr

/-- Image or text layer tag. -/
inductive LayerKind
  | image
  | text
deriving DecidableEq, Repr

/-- The reducer-visible layer record. -/
structure Layer where
  id : ℕ
  kind : LayerKind
  x : ℚ
  y : ℚ
  rot : ℚ
  size : ℚ
  fontSize : ℚ
  text : String
  font : String
  color : String
  strokeColor : String
  strokeWidth : ℚ
  opacity : ℚ
  brightness : ℚ
  saturation : ℚ
  contrast : ℚ
  flipX : Bool
  isLocked : Bool
  propX : ℚ
  propY : ℚ
  propSize : ℚ
  alignX : String
  alignY : String
  shadow : Shadow
  border : Border
  cache : CacheSlot
deriving DecidableEq, Repr

/-- Fields carried by a `LAYER_TRANSFORMED` payload besides `layerId`
(the dispatch sites send subsets of `x`, `y`, `rot`, `propX`, `propY`,
`propSize`, `alignX`, `alignY`); `{...layer, ...transformProps}` overrides
exactly the fields present. -/
structure TransformProps where
  x : Option ℚ := none
  y : Option ℚ := none
  rot : Option ℚ := none
  propX : Option ℚ := none
  propY : Option ℚ := none
  propSize : Option ℚ := none
  alignX : Option String := none
  alignY : Option String := none
deriving DecidableEq, Repr

def applyTransformProps (l : Layer) (p : TransformProps) : Layer :=
  { l with
    x := p.x.getD l.x
    y := p.y.getD l.y
    rot := p.rot.getD l.rot
    propX := p.propX.getD l.propX
    propY := p.propY.getD l.propY
    propSize := p.propSize.getD l.propSize
    alignX := p.alignX.getD l.alignX
    alignY := p.alignY.getD l.alignY }

/-- Property keys dispatched with `LAYER_PROPERTY_CHANGED` in the source,
with their (typed) values. -/
inductive PropAssign
  | size (v : ℚ)
  | fontSize (v : ℚ)
  | opacity (v : ℚ)
  | brightness (v : ℚ)
  | saturation (v : ℚ)
  | contrast (v : ℚ)
  | strokeWidth (v : ℚ)
  | text (v : String)
  | font (v : String)
  | color (v : String)
  | strokeColor (v : String)
  | flipX (v : Bool)
  | isLocked (v : Bool)
deriving DecidableEq, Repr

def applyPropAssign (l : Layer) : PropAssign → Layer
  | .size v => { l with size := v }
  | .fontSize v => { l with fontSize := v }
  | .opacity v => { l with opacity := v }
  | .brightness v => { l with brightness := v }
  | .saturation v => { l with saturation := v }
  | .contrast v => { l with contrast := v }
  | .strokeWidth v => { l with strokeWidth := v }
  | .text v => { l with text := v }
  | .font v => { l with font := v }
  | .color v => { l with color := v }
  | .strokeColor v => { l with strokeColor := v }
  | .flipX v => { l with flipX := v }
  | .isLocked v => { l with isLocked := v }

/-- Shadow property keys: `{...l.shadow, [property]: value}`. -/
inductive ShadowAssign
  | enabled (v : Bool)
  | color (v : String)
  | blur (v : ℚ)
  | offsetX (v : ℚ)
  | offsetY (v : ℚ)
deriving DecidableEq, Repr

def applyShadowAssign (s : Shadow) : ShadowAssign → Shadow
  | .enabled v => { s with enabled := v }
  | .color v => { s with color := v }
  | .blur v => { s with blur := v }
  | .offsetX v => { s with offsetX := v }
  | .offsetY v => { s with offsetY := v }

/-- Border property keys: `{...l.border, [property]: value}`. -/
inductive BorderAssign
  | enabled (v : Bool)
  | color (v : String)
  | width (v : ℚ)
deriving DecidableEq, Repr

def applyBorderAssign (b : Border) : BorderAssign → Border
  | .enabled v => { b with enabled := v }
  | .color v => { b with color := v }
  | .width v => { b with width := v }

/-- The four cited layer-editing actions. -/
inductive LayerEditAction
  | transformed (layerId : ℕ) (props : TransformProps)
  | propertyChanged (layerId : ℕ) (assign : PropAssign)
  | shadowChanged (layerId : ℕ) (assign : ShadowAssign)
  | borderChanged (layerId : ℕ) (assign : BorderAssign)
deriving DecidableEq, Repr

def LayerEditAction.layerId : LayerEditAction → ℕ
  | .transformed i _ => i
  | .propertyChanged i _ => i
  | .shadowChanged i _ => i
  | .borderChanged i _ => i

/-- `layersReducer` restricted to the four cited actions.  Property, shadow
and border changes rebuild the layer with `cache.isValid = false`;
`LAYER_TRANSFORMED` merges the transform props (and leaves the cache slot
untouched).  In every case layers whose id differs from `payload.layerId`
are returned unchanged by the `map`. -/
def layersReducer (layers : List Layer) : LayerEditAction → List Layer
  | .transformed layerId props =>
    layers.map fun l => if l.id ≠ layerId then l else applyTransformProps l props
  | .propertyChanged layerId assign =>
    layers.map fun l =>
      if l.id ≠ layerId then l
      else applyPropAssign { l with cache := { l.cache with isValid := false } } assign
  | .shadowChanged layerId assign =>
    layers.map fun l =>
      if l.id ≠ layerId then l
      else { l with
              shadow := applyShadowAssign l.shadow assign
              cache := { l.cache with isValid := false } }
  | .borderChanged layerId assign =>
    layers.map fun l =>
      if l.id ≠ layerId then l
      else { l with
              border := applyBorderAssign l.border assign
              cache := { l.cache with isValid := false } }

/-- The non-layer fields of `canvasState`. -/
structure CanvasState where
  backgroundHash : Option String
  bgBrightness : ℚ
  bgSaturation : ℚ
  projectRotation : ℕ
  backgroundFlipX : Bool
  layers : List Layer
deriving DecidableEq, Repr

/-- `canvasStateReducer` on the four cited actions: none of them matches a
`canvasState` case, so the default branch returns the state with only
`layers` replaced by the `layersReducer` result (the source's
`newLayers !== canvasState.layers` reference check is true there because
`map` always allocates a fresh array). -/
def canvasStateReducer (cs : CanvasState) (act : LayerEditAction) : CanvasState :=
  { cs with layers := layersReducer cs.layers act }

/-- C10. For every `LAYER_TRANSFORMED`, `LAYER_PROPERTY_CHANGED`,
`LAYER_SHADOW_CHANGED` or `LAYER_BORDER_CHANGED` action the reducer returns
a layers array of the same length in which every position keeps its layer id,
any layer whose id differs from `payload.layerId` is returned unchanged, and
every `canvasState` field other than `layers` is unchanged. -/
theorem canvasStateReducer_frame (cs : CanvasState) (act : LayerEditAction) :
    ((canvasStateReducer cs act).layers.length = cs.layers.length) ∧
    (∀ i : ℕ, ((canvasStateReducer cs act).layers.get? i).map Layer.id =
      (cs.layers.get? i).map Layer.id) ∧
    (∀ i : ℕ, ∀ l : Layer, cs.layers.get? i = some l →
      l.id ≠ act.layerId → (canvasStateReducer cs act).layers.get? i = some l) ∧
    (canvasStateReducer cs act).backgroundHash = cs.backgroundHash ∧
    (canvasStateReducer cs act).bgBrightness = cs.bgBrightness ∧
    (canvasStateReducer cs act).bgSaturation = cs.bgSaturation ∧
    (canvasStateReducer cs act).projectRotation = cs.projectRotation ∧
    (canvasStateReducer cs act).backgroundFlipX = cs.backgroundFlipX := by
  have hmap : ∀ (f : Layer → Layer) (i : ℕ) (l : Layer),
      cs.layers.get? i = some l →
      (cs.layers.map f).get? i = some (f l) := by
    intro f i l hl
    simp [List.get?_eq_getElem?] at hl ⊢
    obtain ⟨h, rfl⟩ := List.getElem?_eq_some_iff.mp hl
    simp [List.getElem?_eq_getElem, h]
  have hid : ∀ (f : Layer → Layer), (∀ l, (f l).id = l.id) →
      ∀ i : ℕ, ((cs.layers.map f).get? i).map Layer.id =
        (cs.layers.get? i).map Layer.id := by
    intro f hf i
    rcases h : cs.layers.get? i with _ | l
    · simp [List.get?_eq_getElem?] at h ⊢
      omega
    · rw [hmap f i l h]
      simp [hf]
  cases act with
  | transformed layerId props =>
    refine ⟨by simp [canvasStateReducer, layersReducer], ?_, ?_, rfl, rfl, rfl, rfl, rfl⟩
    · exact hid _ (fun l => by
        by_cases h : l.id ≠ layerId <;> simp [h, applyTransformProps]) 
    · intro i l hl hne
      rw [canvasStateReducer, layersReducer]
      rw [hmap _ i l hl]
      simp [LayerEditAction.layerId] at hne
      simp [hne]
  | propertyChanged layerId assign =>
    refine ⟨by simp [canvasStateReducer, layersReducer], ?_, ?_, rfl, rfl, rfl, rfl, rfl⟩
    · exact hid _ (fun l => by
        by_cases h : l.id ≠ layerId
        · simp [h]
        · cases assign <;> simp [h, applyPropAssign])
    · intro i l hl hne
      rw [canvasStateReducer, layersReducer]
      rw [hmap _ i l hl]
      simp [LayerEditAction.layerId] at hne
      simp [hne]
  | shadowChanged layerId assign =>
    refine ⟨by simp [canvasStateReducer, layersReducer], ?_, ?_, rfl, rfl, rfl, rfl, rfl⟩
    · exact hid _ (fun l => by by_cases h : l.id ≠ layerId <;> simp [h])
    · intro i l hl hne
      rw [canvasStateReducer, layersReducer]
      rw [hmap _ i l hl]
      simp [LayerEditAction.layerId] at hne
      simp [hne]
  | borderChanged layerId assign =>
    refine ⟨by simp [canvasStateReducer, layersReducer], ?_, ?_, rfl, rfl, rfl, rfl, rfl⟩
    · exact hid _ (fun l => by by_cases h : l.id ≠ layerId <;> simp [h])
    · intro i l hl hne
      rw [canvasStateReducer, layersReducer]
      rw [hmap _ i l hl]
      simp [LayerEditAction.layerId] at hne
      simp [hne]

end Compositor

namespace Compositor

/-- A concrete image layer used by witnesses. -/
def layerA : Layer :=
  { id := 1, kind := .image, x := 400, y := 300, rot := 0, size := 200
    fontSize := 40, text := "", font := "Arial", color := "#fff"
    strokeColor := "#000", strokeWidth := 0, opacity := 1, brightness := 1
    saturation := 1, contrast := 1, flipX := false, isLocked := false
    propX := 1/2, propY := 1/2, propSize := 1/5, alignX := "center"
    alignY := "middle", shadow := ⟨false, "#000", 0, 0, 0⟩
    border := ⟨false, "#000", 0⟩, cache := ⟨none, false⟩ }

/-- A second concrete layer used by witnesses. -/
def layerB : Layer :=
  { layerA with id := 2, x := 100, y := 100 }

/-- A concrete canvas state holding `layerA` and `layerB`. -/
def canvasState0 : CanvasState :=
  { backgroundHash := some "deadbeef", bgBrightness := 1, bgSaturation := 1
    projectRotation := 0, backgroundFlipX := false
    layers := [layerA, layerB] }

/-- Witness for C10: a `LAYER_TRANSFORMED` targeting layer 2 leaves layer 1
(at index 0) unchanged, keeps the length and ids, and leaves the other
canvas-state fields alone. -/
theorem canvasStateReducer_frame_witness :
    (canvasStateReducer canvasState0
        (.transformed 2 { x := some 99 })).layers.get? 0 = some layerA ∧
    (canvasStateReducer canvasState0
        (.transformed 2 { x := some 99 })).layers.length = 2 ∧
    (canvasStateReducer canvasState0
        (.transformed 2 { x := some 99 })).backgroundHash = some "deadbeef" := by
  have h := canvasStateReducer_frame canvasState0 (.transformed 2 { x := some 99 })
  refine ⟨?_, ?_, ?_⟩
  · exact h.2.2.1 0 layerA rfl (by decide)
  · rw [h.1]
    rfl
  · rw [h.2.2.2.1]
    rfl

/-! ## C9: `generateMipmaps` -/

/-- The base (level 0) dimensions of `generateMipmaps`: scale the source by
`min(maxDimension/srcW, maxDimension/srcH, 1)` and `Math.round` each
dimension. -/
def cappedBaseDims (srcW srcH maxDimension : ℕ) : ℕ × ℕ :=
  let scale : ℚ := min (min ((maxDimension : ℚ) / (srcW : ℚ))
    ((maxDimension : ℚ) / (srcH : ℚ))) 1
  ((jsRound ((srcW : ℚ) * scale)).toNat, (jsRound ((srcH : ℚ) * scale)).toNat)

/-- The `while (mipWidth > 32 && mipHeight > 32)` halving loop of
`generateMipmaps`: each next level is `max(32, floor(prev/2))` per dimension. -/
def mipLoop (w h : ℕ) : List (ℕ × ℕ) :=
  if 32 < w ∧ 32 < h then
    (max 32 (w / 2), max 32 (h / 2)) :: mipLoop (max 32 (w / 2)) (max 32 (h / 2))
  else []
termination_by w
decreasing_by
  rename_i hc
  omega

/-- `generateMipmaps(sourceImage, maxDimension)`: the capped base level
followed by the halving chain (we track only the surface dimensions). -/
def generateMipmaps (srcW srcH maxDimension : ℕ) : List (ℕ × ℕ) :=
  let base := cappedBaseDims srcW srcH maxDimension
  base :: mipLoop base.1 base.2

/-- The relation between consecutive mipmap levels: the next one is the
previous halved (floored), clamped below at 32, hence strictly smaller. -/
def mipStep (p q : ℕ × ℕ) : Prop :=
  q.1 = max 32 (p.1 / 2) ∧ q.2 = max 32 (p.2 / 2) ∧ q.1 < p.1 ∧ q.2 < p.2

theorem mipLoop_chain (w : ℕ) : ∀ h : ℕ,
    List.Chain mipStep (w, h) (mipLoop w h) := by
  induction w using Nat.strong_induction_on with
  | _ w ih =>
    intro h
    rw [mipLoop]
    by_cases hc : 32 < w ∧ 32 < h
    · rw [if_pos hc]
      refine List.Chain.cons ⟨rfl, rfl, by omega, by omega⟩ ?_
      exact ih (max 32 (w / 2)) (by omega) (max 32 (h / 2))
    · rw [if_neg hc]
      exact List.Chain.nil

theorem mipLoop_ge_32 (w : ℕ) : ∀ h : ℕ, ∀ p ∈ mipLoop w h,
    32 ≤ p.1 ∧ 32 ≤ p.2 := by
  induction w using Nat.strong_induction_on with
  | _ w ih =>
    intro h p hp
    rw [mipLoop] at hp
    by_cases hc : 32 < w ∧ 32 < h
    · rw [if_pos hc] at hp
      rcases List.mem_cons.mp hp with rfl | hmem
      · exact ⟨le_max_left _ _, le_max_left _ _⟩
      · exact ih (max 32 (w / 2)) (by omega) (max 32 (h / 2)) p hmem
    · rw [if_neg hc] at hp
      simp at hp

/-- C9 counterexample. A 10×10 source produces the single level `(10,10)`,
whose smaller dimension is below 32: the clause "every level is at least
32px on its smaller dimension" fails for sources smaller than 32px. -/
theorem generateMipmaps_small_source_below_32 :
    generateMipmaps 10 10 2048 = [(10, 10)] ∧
    ¬ (∀ p ∈ generateMipmaps 10 10 2048, 32 ≤ min p.1 p.2) := by
  have hbase : cappedBaseDims 10 10 2048 = (10, 10) := by
    simp only [cappedBaseDims]
    push_cast
    norm_num [jsRound, min_def]
    rfl
  have hloop : mipLoop 10 10 = [] := by
    rw [mipLoop]
    norm_num
  have hall : generateMipmaps 10 10 2048 = [(10, 10)] := by
    unfold generateMipmaps
    rw [hbase]
    simpa using hloop
  refine ⟨hall, ?_⟩
  intro hcontra
  have := hcontra (10, 10) (by rw [hall]; exact List.mem_singleton.mpr rfl)
  norm_num at this

/-- C9 (amended). For every source of positive dimensions, `generateMipmaps`
with the 2048 cap yields a nonempty chain whose base level is the
rounded-capped source with both dimensions at most 2048, in which each
following level is the previous one halved (floored) and clamped below at
32 — hence strictly smaller, i.e. largest first; every level after the base
is at least 32 in both dimensions, and if the base itself is at least 32 on
its smaller dimension then every level is. -/
theorem jsRound_toNat_le_of_le (q : ℚ) (n : ℕ) (h : q ≤ (n : ℚ)) :
    (jsRound q).toNat ≤ n := by
  have hz : jsRound q ≤ (n : ℤ) := by
    unfold jsRound
    have hflt : ⌊q + 1/2⌋ < (n : ℤ) + 1 := by
      refine Int.floor_lt.mpr ?_
      push_cast
      linarith
    omega
  exact Int.toNat_le.mpr hz

theorem generateMipmaps_spec (srcW srcH : ℕ) (hW : 1 ≤ srcW) (hH : 1 ≤ srcH) :
    generateMipmaps srcW srcH 2048 =
      cappedBaseDims srcW srcH 2048 ::
        mipLoop (cappedBaseDims srcW srcH 2048).1
          (cappedBaseDims srcW srcH 2048).2 ∧
    (cappedBaseDims srcW srcH 2048).1 ≤ 2048 ∧
    (cappedBaseDims srcW srcH 2048).2 ≤ 2048 ∧
    List.Chain mipStep (cappedBaseDims srcW srcH 2048)
      (generateMipmaps srcW srcH 2048).tail ∧
    (∀ p ∈ (generateMipmaps srcW srcH 2048).tail, 32 ≤ p.1 ∧ 32 ≤ p.2) ∧
    (32 ≤ min (cappedBaseDims srcW srcH 2048).1
        (cappedBaseDims srcW srcH 2048).2 →
      ∀ p ∈ generateMipmaps srcW srcH 2048, 32 ≤ p.1 ∧ 32 ≤ p.2) := by
  have hWq : (0 : ℚ) < (srcW : ℚ) := by exact_mod_cast hW
  have hHq : (0 : ℚ) < (srcH : ℚ) := by exact_mod_cast hH
  have hscale_le1 : min (min ((2048 : ℚ) / (srcW : ℚ))
      ((2048 : ℚ) / (srcH : ℚ))) 1 ≤ 1 := min_le_right _ _
  have hscale_leW : min (min ((2048 : ℚ) / (srcW : ℚ))
      ((2048 : ℚ) / (srcH : ℚ))) 1 ≤ (2048 : ℚ) / (srcW : ℚ) :=
    le_trans (min_le_left _ _) (min_le_left _ _)
  have hscale_leH : min (min ((2048 : ℚ) / (srcW : ℚ))
      ((2048 : ℚ) / (srcH : ℚ))) 1 ≤ (2048 : ℚ) / (srcH : ℚ) :=
    le_trans (min_le_left _ _) (min_le_right _ _)
  have hcapW : (cappedBaseDims srcW srcH 2048).1 ≤ 2048 := by
    unfold cappedBaseDims
    refine jsRound_toNat_le_of_le _ _ ?_
    calc (srcW : ℚ) * min (min ((2048 : ℚ) / (srcW : ℚ))
          ((2048 : ℚ) / (srcH : ℚ))) 1
        ≤ (srcW : ℚ) * ((2048 : ℚ) / (srcW : ℚ)) :=
          mul_le_mul_of_nonneg_left hscale_leW (le_of_lt hWq)
      _ = (2048 : ℚ) := by field_simp
  have hcapH : (cappedBaseDims srcW srcH 2048).2 ≤ 2048 := by
    unfold cappedBaseDims
    refine jsRound_toNat_le_of_le _ _ ?_
    calc (srcH : ℚ) * min (min ((2048 : ℚ) / (srcW : ℚ))
          ((2048 : ℚ) / (srcH : ℚ))) 1
        ≤ (srcH : ℚ) * ((2048 : ℚ) / (srcH : ℚ)) :=
          mul_le_mul_of_nonneg_left hscale_leH (le_of_lt hHq)
      _ = (2048 : ℚ) := by field_simp
  have hchain := mipLoop_chain (cappedBaseDims srcW srcH 2048).1
    (cappedBaseDims srcW srcH 2048).2
  have htail : (generateMipmaps srcW srcH 2048).tail =
      mipLoop (cappedBaseDims srcW srcH 2048).1
        (cappedBaseDims srcW srcH 2048).2 := rfl
  refine ⟨rfl, hcapW, hcapH, ?_, ?_, ?_⟩
  · rw [htail]
    simpa using hchain
  · rw [htail]
    exact mipLoop_ge_32 _ _
  · intro hmin p hp
    have hb1 : 32 ≤ (cappedBaseDims srcW srcH 2048).1 :=
      le_trans hmin (min_le_left _ _)
    have hb2 : 32 ≤ (cappedBaseDims srcW srcH 2048).2 :=
      le_trans hmin (min_le_right _ _)
    rcases List.mem_cons.mp hp with rfl | hmem
    · exact ⟨hb1, hb2⟩
    · exact mipLoop_ge_32 _ _ p hmem

/-- Witness for C9 on a 100×100 source: three levels 100 → 50 → 32, base
within the cap, tail levels at least 32. -/
theorem generateMipmaps_spec_witness :
    generateMipmaps 100 100 2048 = [(100, 100), (50, 50), (32, 32)] ∧
    (cappedBaseDims 100 100 2048).1 ≤ 2048 ∧
    (∀ p ∈ (generateMipmaps 100 100 2048).tail, 32 ≤ p.1 ∧ 32 ≤ p.2) := by
  have h := generateMipmaps_spec 100 100 (by norm_num) (by norm_num)
  have hbase : cappedBaseDims 100 100 2048 = (100, 100) := by
    simp only [cappedBaseDims]
    push_cast
    norm_num [jsRound, min_def]
    rfl
  have hl1 : mipLoop 100 100 = (50, 50) :: mipLoop 50 50 := by
    rw [mipLoop]
    norm_num
  have hl2 : mipLoop 50 50 = (32, 32) :: mipLoop 32 32 := by
    rw [mipLoop]
    norm_num
  have hl3 : mipLoop 32 32 = [] := by
    rw [mipLoop]
    norm_num
  refine ⟨?_, h.2.1, h.2.2.2.2.1⟩
  have := h.1
  rw [hbase] at this
  rw [this]
  simp only
  rw [hl1, hl2, hl3]

/-! ## Geometry of image layers (shared by C2, C3, C5)

Real-valued embedding of the layer geometry helpers.  `Math.cos`, `Math.sin`,
`Math.sqrt` and `Math.hypot` become their real counterparts, so these
definitions are noncomputable; concrete instances are evaluated in proofs
with `Real.cos_zero` etc. -/

/-- Degrees to radians, as in `rot * Math.PI / 180`. -/
noncomputable def rad (deg : ℝ) : ℝ := deg * Real.pi / 180

/-- Geometry-relevant data of a layer: world transform, base mipmap
dimensions, content frame, proportional fields, and (for hit tests) the
alpha value of the base-mipmap pixel at integer raster coordinates.
Layers are compared by `id`, as in the source. -/
structure GeoLayer where
  id : ℕ
  kind : LayerKind
  x : ℝ
  y : ℝ
  rot : ℝ
  size : ℝ
  flipX : Bool
  baseW : ℕ
  baseH : ℕ
  frameX : ℝ
  frameY : ℝ
  frameW : ℝ
  frameH : ℝ
  textW : ℝ
  textH : ℝ
  propX : ℝ
  propY : ℝ
  propSize : ℝ
  alphaAt : ℤ → ℤ → ℕ

/-- `getLayerMetrics`: display width/height.  Image layers scale the content
frame by `size / mipmaps[0].width`; text layers use the measured text block
(modelled as the `textW`/`textH` fields, since text measurement is a
rendering-backend service). -/
noncomputable def getLayerMetrics (l : GeoLayer) : ℝ × ℝ :=
  match l.kind with
  | .image => (l.frameW * (l.size / (l.baseW : ℝ)), l.frameH * (l.size / (l.baseW : ℝ)))
  | .text => (l.textW, l.textH)

/-- The content-frame center offset `(offsetX, offsetY)` computed identically
in `getHandleWorldPosition`, `getMovieHandleAtPoint` and
`isPointInMovieLayer` for image layers (0 for text). -/
noncomputable def frameOffset (l : GeoLayer) : ℝ × ℝ :=
  match l.kind with
  | .image =>
    let fullWidth := l.size
    let fullHeight := l.size * ((l.baseH : ℝ) / (l.baseW : ℝ))
    let frameScale := fullWidth / (l.baseW : ℝ)
    ((l.frameX + l.frameW / 2) * frameScale - fullWidth / 2,
     (l.frameY + l.frameH / 2) * frameScale - fullHeight / 2)
  | .text => (0, 0)

/-- Corner handle names. -/
inductive HandleName
  | tl
  | tr
  | bl
  | br
deriving DecidableEq, Repr

/-- The `oppositeHandles` table used when a resize gesture starts. -/
def oppositeHandle : HandleName → HandleName
  | .tl => .br
  | .tr => .bl
  | .bl => .tr
  | .br => .tl

/-- Layer-local handle positions `±dWidth/2, ±dHeight/2`. -/
noncomputable def handleLocal (dW dH : ℝ) : HandleName → ℝ × ℝ
  | .tl => (-dW / 2, -dH / 2)
  | .tr => (dW / 2, -dH / 2)
  | .bl => (-dW / 2, dH / 2)
  | .br => (dW / 2, dH / 2)

open scoped Classical in
/-- `getHandleWorldPosition(layer, handleName)`: the world position of a
corner handle; degenerate metrics return the layer center. -/
noncomputable def getHandleWorldPosition (l : GeoLayer) (h : HandleName) : ℝ × ℝ :=
  let m := getLayerMetrics l
  if m.1 = 0 ∨ m.2 = 0 then (l.x, l.y)
  else
    let off := frameOffset l
    let hl := handleLocal m.1 m.2 h
    let c := Real.cos (rad l.rot)
    let s := Real.sin (rad l.rot)
    (l.x + ((off.1 + hl.1) * c - (off.2 + hl.2) * s),
     l.y + ((off.1 + hl.1) * s + (off.2 + hl.2) * c))

open scoped Classical in
/-- The resize branch of `handleMovieInteractionMove`: from the gesture-start
`anchorPoint` (opposite corner) and `startHandlePoint`, and the pre-gesture
center `(initX, initY)` and size, compute the dispatched new center and size
for pointer position `(px, py)`.  `Math.hypot` is `Real.sqrt` of the squared
norm; if the initial distance is not above 1 nothing is dispatched. -/
noncomputable def resizeStep (anchor startHandle : ℝ × ℝ)
    (initX initY initSize px py : ℝ) : ℝ × ℝ × ℝ :=
  let ivx := startHandle.1 - anchor.1
  let ivy := startHandle.2 - anchor.2
  let cvx := px - anchor.1
  let cvy := py - anchor.2
  let initialDist := Real.sqrt (ivx ^ 2 + ivy ^ 2)
  if 1 < initialDist then
    let dotProduct := cvx * ivx + cvy * ivy
    let projectedDist := dotProduct / initialDist
    let scaleFactor := max (1 / 100) (projectedDist / initialDist)
    (anchor.1 + (initX - anchor.1) * scaleFactor,
     anchor.2 + (initY - anchor.2) * scaleFactor,
     max 20 (initSize * scaleFactor))
  else (initX, initY, initSize)

end Compositor

namespace Compositor

/-! ## C2: corner-resize anchor invariant -/

theorem getHandleWorldPosition_scale (l : GeoLayer)
    (himg : l.kind = LayerKind.image) (h : HandleName) (k cx cy : ℝ)
    (hk : k ≠ 0) (hm1 : (getLayerMetrics l).1 ≠ 0)
    (hm2 : (getLayerMetrics l).2 ≠ 0) :
    getHandleWorldPosition { l with x := cx, y := cy, size := l.size * k } h =
      (cx + k * ((getHandleWorldPosition l h).1 - l.x),
       cy + k * ((getHandleWorldPosition l h).2 - l.y)) := by
  simp only [getLayerMetrics, himg] at hm1 hm2
  have hM1 : l.frameW * (l.size * k / (l.baseW : ℝ)) =
      k * (l.frameW * (l.size / (l.baseW : ℝ))) := by ring
  have hM2 : l.frameH * (l.size * k / (l.baseW : ℝ)) =
      k * (l.frameH * (l.size / (l.baseW : ℝ))) := by ring
  have hM1ne : l.frameW * (l.size * k / (l.baseW : ℝ)) ≠ 0 := by
    rw [hM1]
    exact mul_ne_zero hk hm1
  have hM2ne : l.frameH * (l.size * k / (l.baseW : ℝ)) ≠ 0 := by
    rw [hM2]
    exact mul_ne_zero hk hm2
  cases h <;>
    (simp only [getHandleWorldPosition, getLayerMetrics, frameOffset,
      handleLocal, himg]
     rw [if_neg (by push_neg; exact ⟨hM1ne, hM2ne⟩),
       if_neg (by push_neg; exact ⟨hm1, hm2⟩)]
     refine Prod.ext ?_ ?_ <;> (simp only; ring))

/-- A 100×100 image layer at the origin, rotation 0, full content frame. -/
noncomputable def resizeDemoLayer : GeoLayer :=
  { id := 1, kind := .image, x := 0, y := 0, rot := 0, size := 100
    flipX := false, baseW := 100, baseH := 100, frameX := 0, frameY := 0
    frameW := 100, frameH := 100, textW := 0, textH := 0, propX := 1/2
    propY := 1/2, propSize := 1/5, alphaAt := fun _ _ => 255 }

theorem resizeDemoLayer_metrics : getLayerMetrics resizeDemoLayer = (100, 100) := by
  simp only [getLayerMetrics, resizeDemoLayer]
  norm_num

theorem rad_zero : rad 0 = 0 := by
  simp [rad]

/-- C2 counterexample. With a 100×100 layer at the origin (rotation 0, full
content frame), dragging the `br` handle towards the `tl` anchor so that the
projected scale factor is 1/10 engages the minimum-size clamp
`max(20, size*k)`: the dispatched size is 20, not `size*k = 10`, and the
opposite corner — the anchor, initially at (-50,-50) — moves to (-55,-55),
so the claimed invariant fails at this intermediate pointer position. -/
theorem resize_clamp_breaks_anchor :
    getHandleWorldPosition resizeDemoLayer (oppositeHandle .br) = (-50, -50) ∧
    getHandleWorldPosition resizeDemoLayer .br = (50, 50) ∧
    resizeStep (-50, -50) (50, 50) 0 0 100 (-40) (-40) = (-45, -45, 20) ∧
    (20 : ℝ) ≠ 100 * (1 / 10) ∧
    getHandleWorldPosition
        { resizeDemoLayer with x := -45, y := -45, size := 20 }
        (oppositeHandle .br) = (-55, -55) ∧
    ((-55 : ℝ), (-55 : ℝ)) ≠ ((-50 : ℝ), (-50 : ℝ)) := by
  have hcos : Real.cos (rad 0) = 1 := by rw [rad_zero, Real.cos_zero]
  have hsin : Real.sin (rad 0) = 0 := by rw [rad_zero, Real.sin_zero]
  have hmul : Real.sqrt 20000 * Real.sqrt 20000 = 20000 :=
    Real.mul_self_sqrt (by norm_num)
  have h1 : (1 : ℝ) < Real.sqrt 20000 := by
    have h0 : (1 : ℝ) = Real.sqrt 1 := Real.sqrt_one.symm
    rw [h0]
    exact Real.sqrt_lt_sqrt (by norm_num) (by norm_num)
  have hk : (2000 : ℝ) / Real.sqrt 20000 / Real.sqrt 20000 = 1 / 10 := by
    rw [div_div, hmul]
    norm_num
  refine ⟨?_, ?_, ?_, by norm_num, ?_, by norm_num⟩
  · simp only [oppositeHandle, getHandleWorldPosition, getLayerMetrics,
      frameOffset, handleLocal, resizeDemoLayer, hcos, hsin]
    norm_num
  · simp only [getHandleWorldPosition, getLayerMetrics, frameOffset,
      handleLocal, resizeDemoLayer, hcos, hsin]
    norm_num
  · simp only [resizeStep]
    norm_num
    rw [if_pos (by norm_num [h1] : (1 : ℝ) < Real.sqrt 20000)]
    rw [hk]
    norm_num [max_def]
  · simp only [oppositeHandle, getHandleWorldPosition, getLayerMetrics,
      frameOffset, handleLocal, resizeDemoLayer, hcos, hsin]
    norm_num

/-- C2 (amended). During a corner resize with the clamps not engaged
(`initialDist > 1` and `initialSize*k ≥ 20`): the dispatched center is the
anchor plus the initial anchor-to-center vector scaled by
`k = max(0.01, projectedDist/initialDist)`, the dispatched size is exactly
`initialSize*k`, and the world position of the corner opposite the dragged
handle (the anchor) is unchanged.  When the minimum-size clamp engages the
invariant fails (see the counterexample). -/
theorem resizeStep_anchor (l : GeoLayer) (hname : HandleName) (px py : ℝ)
    (anchor startHandle : ℝ × ℝ) (k : ℝ)
    (himg : l.kind = LayerKind.image)
    (hdW : (getLayerMetrics l).1 ≠ 0) (hdH : (getLayerMetrics l).2 ≠ 0)
    (hanchor : anchor = getHandleWorldPosition l (oppositeHandle hname))
    (hstart : startHandle = getHandleWorldPosition l hname)
    (hdist : 1 < Real.sqrt ((startHandle.1 - anchor.1) ^ 2 +
      (startHandle.2 - anchor.2) ^ 2))
    (hk : k = max (1 / 100)
      (((px - anchor.1) * (startHandle.1 - anchor.1) +
        (py - anchor.2) * (startHandle.2 - anchor.2)) /
        Real.sqrt ((startHandle.1 - anchor.1) ^ 2 +
          (startHandle.2 - anchor.2) ^ 2) /
        Real.sqrt ((startHandle.1 - anchor.1) ^ 2 +
          (startHandle.2 - anchor.2) ^ 2)))
    (hclamp : 20 ≤ l.size * k) :
    resizeStep anchor startHandle l.x l.y l.size px py =
      (anchor.1 + (l.x - anchor.1) * k,
       anchor.2 + (l.y - anchor.2) * k, l.size * k) ∧
    getHandleWorldPosition
      { l with x := anchor.1 + (l.x - anchor.1) * k
               y := anchor.2 + (l.y - anchor.2) * k
               size := l.size * k } (oppositeHandle hname) = anchor := by
  have hkpos : (0 : ℝ) < k := by
    rw [hk]
    exact lt_of_lt_of_le (by norm_num) (le_max_left _ _)
  constructor
  · simp only [resizeStep]
    rw [if_pos hdist, ← hk]
    rw [max_eq_right hclamp]
  · rw [getHandleWorldPosition_scale l himg (oppositeHandle hname) k _ _
      (ne_of_gt hkpos) hdW hdH]
    rw [← hanchor]
    refine Prod.ext ?_ ?_ <;> (simp only; ring)

/-- Witness for C2 at the demo layer: dragging the `br` handle outward to
(60,60) gives scale factor 11/10; the dispatched transform is center (5,5)
with size 110 and the `tl` anchor stays at (-50,-50). -/
theorem resizeStep_anchor_witness :
    resizeStep (-50, -50) (50, 50) 0 0 100 60 60 = (5, 5, 110) ∧
    getHandleWorldPosition
      { resizeDemoLayer with x := 5, y := 5, size := 110 } HandleName.tl =
      (-50, -50) := by
  have hmul : Real.sqrt 20000 * Real.sqrt 20000 = 20000 :=
    Real.mul_self_sqrt (by norm_num)
  have hcos : Real.cos (rad 0) = 1 := by rw [rad_zero, Real.cos_zero]
  have hsin : Real.sin (rad 0) = 0 := by rw [rad_zero, Real.sin_zero]
  have hanchor : ((-50 : ℝ), (-50 : ℝ)) =
      getHandleWorldPosition resizeDemoLayer (oppositeHandle .br) := by
    simp only [oppositeHandle, getHandleWorldPosition, getLayerMetrics,
      frameOffset, handleLocal, resizeDemoLayer, hcos, hsin]
    norm_num
  have hstart : ((50 : ℝ), (50 : ℝ)) =
      getHandleWorldPosition resizeDemoLayer HandleName.br := by
    simp only [getHandleWorldPosition, getLayerMetrics, frameOffset,
      handleLocal, resizeDemoLayer, hcos, hsin]
    norm_num
  have hdist : 1 < Real.sqrt ((((50 : ℝ), (50 : ℝ)).1 - ((-50 : ℝ), (-50 : ℝ)).1) ^ 2 +
      (((50 : ℝ), (50 : ℝ)).2 - ((-50 : ℝ), (-50 : ℝ)).2) ^ 2) := by
    have h0 : (1 : ℝ) = Real.sqrt 1 := Real.sqrt_one.symm
    rw [show ((((50 : ℝ), (50 : ℝ)).1 - ((-50 : ℝ), (-50 : ℝ)).1) ^ 2 +
      (((50 : ℝ), (50 : ℝ)).2 - ((-50 : ℝ), (-50 : ℝ)).2) ^ 2) = (20000 : ℝ) by norm_num]
    rw [h0]
    exact Real.sqrt_lt_sqrt (by norm_num) (by norm_num)
  have hk : (11 / 10 : ℝ) = max (1 / 100)
      ((((60 : ℝ) - ((-50 : ℝ), (-50 : ℝ)).1) * (((50 : ℝ), (50 : ℝ)).1 - ((-50 : ℝ), (-50 : ℝ)).1) +
        ((60 : ℝ) - ((-50 : ℝ), (-50 : ℝ)).2) * (((50 : ℝ), (50 : ℝ)).2 - ((-50 : ℝ), (-50 : ℝ)).2)) /
        Real.sqrt ((((50 : ℝ), (50 : ℝ)).1 - ((-50 : ℝ), (-50 : ℝ)).1) ^ 2 +
          (((50 : ℝ), (50 : ℝ)).2 - ((-50 : ℝ), (-50 : ℝ)).2) ^ 2) /
        Real.sqrt ((((50 : ℝ), (50 : ℝ)).1 - ((-50 : ℝ), (-50 : ℝ)).1) ^ 2 +
          (((50 : ℝ), (50 : ℝ)).2 - ((-50 : ℝ), (-50 : ℝ)).2) ^ 2)) := by
    rw [show ((((50 : ℝ), (50 : ℝ)).1 - ((-50 : ℝ), (-50 : ℝ)).1) ^ 2 +
      (((50 : ℝ), (50 : ℝ)).2 - ((-50 : ℝ), (-50 : ℝ)).2) ^ 2) = (20000 : ℝ) by norm_num]
    rw [show (((60 : ℝ) - ((-50 : ℝ), (-50 : ℝ)).1) * (((50 : ℝ), (50 : ℝ)).1 - ((-50 : ℝ), (-50 : ℝ)).1) +
        ((60 : ℝ) - ((-50 : ℝ), (-50 : ℝ)).2) * (((50 : ℝ), (50 : ℝ)).2 - ((-50 : ℝ), (-50 : ℝ)).2)) =
      (22000 : ℝ) by norm_num]
    rw [div_div, hmul]
    norm_num [max_def]
  have h := resizeStep_anchor resizeDemoLayer .br 60 60 (-50, -50) (50, 50)
    (11 / 10) rfl
    (by rw [resizeDemoLayer_metrics]; norm_num)
    (by rw [resizeDemoLayer_metrics]; norm_num)
    hanchor hstart hdist hk
    (by simp only [resizeDemoLayer]; norm_num)
  obtain ⟨h1, h2⟩ := h
  constructor
  · have hx : resizeDemoLayer.x = 0 := rfl
    have hy : resizeDemoLayer.y = 0 := rfl
    have hs : resizeDemoLayer.size = 100 := rfl
    rw [hx, hy, hs] at h1
    rw [h1]
    norm_num
  · simp only [oppositeHandle, resizeDemoLayer] at h2
    norm_num at h2
    simp only [resizeDemoLayer]
    norm_num
    exact h2

/-! ## C3: pointer-down hit test and layer selection

`handleMovieInteractionStart` scans `canvasState.layers` (top first): the
first bounding-box hit is remembered, and the scan stops at the first layer
whose pixel is opaque at the point; otherwise the remembered bounding-box
layer is selected. -/

open scoped Classical in
/-- `isPixelOpaqueAtPoint(layer, point)` from the source.  Non-image layers
return true.  The point is translated to the layer center, rotated by
`-rot`, mapped into base-mipmap raster coordinates (`Math.floor`), checked
against the asset bounds, and the pixel's alpha is compared against the
threshold 10.  Note the source applies no `flipX` correction. -/
noncomputable def isPixelOpaqueAtPoint (l : GeoLayer) (px py : ℝ) : Prop :=
  if l.kind ≠ LayerKind.image then True
  else
    let dx := px - l.x
    let dy := py - l.y
    let a := rad (-l.rot)
    let localX := dx * Real.cos a - dy * Real.sin a
    let localY := dx * Real.sin a + dy * Real.cos a
    let assetW := (l.baseW : ℝ)
    let assetH := (l.baseH : ℝ)
    let layerRenderWidth := l.size
    let layerRenderHeight := l.size * (assetH / assetW)
    let scale := assetW / layerRenderWidth
    let proxyX := ⌊(localX + layerRenderWidth / 2) * scale⌋
    let proxyY := ⌊(localY + layerRenderHeight / 2) * scale⌋
    if proxyX < 0 ∨ (l.baseW : ℤ) ≤ proxyX ∨ proxyY < 0 ∨ (l.baseH : ℤ) ≤ proxyY
    then False
    else 10 < l.alphaAt proxyX proxyY

open scoped Classical in
/-- Modelled from the spec wording "sampled from its mipmap base after
inverse-rotating/inverse-flipping the point into layer-local raster
coordinates": identical to `isPixelOpaqueAtPoint` except that the local x
coordinate is mirrored when `flipX` is set (undoing the `ctx.scale(-1,1)`
applied when the layer is drawn). -/
noncomputable def specIsPixelOpaqueAtPoint (l : GeoLayer) (px py : ℝ) : Prop :=
  if l.kind ≠ LayerKind.image then True
  else
    let dx := px - l.x
    let dy := py - l.y
    let a := rad (-l.rot)
    let localX0 := dx * Real.cos a - dy * Real.sin a
    let localX := if l.flipX then -localX0 else localX0
    let localY := dx * Real.sin a + dy * Real.cos a
    let assetW := (l.baseW : ℝ)
    let assetH := (l.baseH : ℝ)
    let layerRenderWidth := l.size
    let layerRenderHeight := l.size * (assetH / assetW)
    let scale := assetW / layerRenderWidth
    let proxyX := ⌊(localX + layerRenderWidth / 2) * scale⌋
    let proxyY := ⌊(localY + layerRenderHeight / 2) * scale⌋
    if proxyX < 0 ∨ (l.baseW : ℤ) ≤ proxyX ∨ proxyY < 0 ∨ (l.baseH : ℤ) ≤ proxyY
    then False
    else 10 < l.alphaAt proxyX proxyY

open scoped Classical in
/-- `isPointInMovieLayer(point, layer)`: bounding-region test in the
layer-local (inverse-rotated) frame around the content-frame center. -/
noncomputable def isPointInMovieLayer (l : GeoLayer) (px py : ℝ) : Prop :=
  let m := getLayerMetrics l
  if m.1 = 0 then False
  else
    let off := frameOffset l
    let a := rad (-l.rot)
    let localX := (px - l.x) * Real.cos a - (py - l.y) * Real.sin a
    let localY := (px - l.x) * Real.sin a + (py - l.y) * Real.cos a
    |localX - off.1| < m.1 / 2 ∧ |localY - off.2| < m.2 / 2

open scoped Classical in
/-- The selection loop of `handleMovieInteractionStart`: scan top-to-bottom,
remember the first bounding-box hit in `topBB`, stop at the first
pixel-opaque bounding-box hit; at the end fall back to `topBB`. -/
noncomputable def selectLayerLoop (px py : ℝ) :
    List GeoLayer → Option GeoLayer → Option GeoLayer
  | [], topBB => topBB
  | l :: ls, topBB =>
    if isPointInMovieLayer l px py then
      if isPixelOpaqueAtPoint l px py then some l
      else selectLayerLoop px py ls (topBB.orElse fun _ => some l)
    else selectLayerLoop px py ls topBB

/-- The layer `handleMovieInteractionStart` selects at a pointer-down point. -/
noncomputable def selectLayerAt (layers : List GeoLayer) (px py : ℝ) :
    Option GeoLayer :=
  selectLayerLoop px py layers none

open scoped Classical in
/-- First layer (top-to-bottom) whose bounding region contains the point and
whose pixel there is opaque per the source's sampling. -/
noncomputable def findOpaqueHit (px py : ℝ) : List GeoLayer → Option GeoLayer
  | [] => none
  | l :: ls =>
    if isPointInMovieLayer l px py ∧ isPixelOpaqueAtPoint l px py then some l
    else findOpaqueHit px py ls

open scoped Classical in
/-- First layer (top-to-bottom) whose bounding region contains the point. -/
noncomputable def findBoundingBoxHit (px py : ℝ) : List GeoLayer → Option GeoLayer
  | [] => none
  | l :: ls =>
    if isPointInMovieLayer l px py then some l
    else findBoundingBoxHit px py ls

theorem selectLayerLoop_spec (px py : ℝ) (layers : List GeoLayer) :
    ∀ acc : Option GeoLayer,
      selectLayerLoop px py layers acc =
        (findOpaqueHit px py layers).orElse
          (fun _ => acc.orElse fun _ => findBoundingBoxHit px py layers) := by
  induction layers with
  | nil => intro acc; cases acc <;> rfl
  | cons l ls ih =>
    intro acc
    by_cases hin : isPointInMovieLayer l px py
    · by_cases hop : isPixelOpaqueAtPoint l px py
      · simp [selectLayerLoop, findOpaqueHit, findBoundingBoxHit, hin, hop,
          Option.orElse]
      · have hno : ¬ (isPointInMovieLayer l px py ∧
            isPixelOpaqueAtPoint l px py) := fun hc => hop hc.2
        rw [show selectLayerLoop px py (l :: ls) acc =
            selectLayerLoop px py ls (acc.orElse fun _ => some l) by
          simp [selectLayerLoop, hin, hop]]
        rw [ih]
        rw [show findOpaqueHit px py (l :: ls) = findOpaqueHit px py ls by
          simp [findOpaqueHit, hno]]
        rw [show findBoundingBoxHit px py (l :: ls) = some l by
          simp [findBoundingBoxHit, hin]]
        cases acc <;> cases hfo : findOpaqueHit px py ls <;>
          simp [Option.orElse]
    · have hno : ¬ (isPointInMovieLayer l px py ∧
          isPixelOpaqueAtPoint l px py) := fun hc => hin hc.1
      rw [show selectLayerLoop px py (l :: ls) acc =
          selectLayerLoop px py ls acc by simp [selectLayerLoop, hin]]
      rw [show findOpaqueHit px py (l :: ls) = findOpaqueHit px py ls by
        simp [findOpaqueHit, hno]]
      rw [show findBoundingBoxHit px py (l :: ls) =
          findBoundingBoxHit px py ls by simp [findBoundingBoxHit, hin]]
      exact ih acc

/-- C3 (amended). The selected layer is the first (top-to-bottom) layer whose
bounding region contains the point and whose base-mipmap pixel there is
opaque per the source's sampling — which inverse-rotates but applies no
inverse-flip — and otherwise the first bounding-box-containing layer. -/
theorem selectLayerAt_spec (layers : List GeoLayer) (px py : ℝ) :
    selectLayerAt layers px py =
      (findOpaqueHit px py layers).orElse
        (fun _ => findBoundingBoxHit px py layers) := by
  rw [selectLayerAt, selectLayerLoop_spec]
  rfl

/-- A flipped 100×100 image layer at the origin whose left raster half is
opaque (alpha 255) and right half fully transparent. -/
noncomputable def flippedLayer : GeoLayer :=
  { id := 1, kind := .image, x := 0, y := 0, rot := 0, size := 100
    flipX := true, baseW := 100, baseH := 100, frameX := 0, frameY := 0
    frameW := 100, frameH := 100, textW := 0, textH := 0, propX := 1/2
    propY := 1/2, propSize := 1/5
    alphaAt := fun rx _ => if rx < 50 then 255 else 0 }

/-- A fully opaque 100×100 image layer at the origin, listed below
`flippedLayer`. -/
noncomputable def opaqueLayer : GeoLayer :=
  { resizeDemoLayer with id := 2 }

/-- C3 counterexample. At point (25,0) over a flipped top layer whose
visible (mirrored) pixel is opaque, the source's sampling — which applies no
inverse-flip — reads the transparent un-mirrored pixel, so the scan falls
through to the opaque layer underneath (id 2); the claim's sampling (with
inverse-flip, `specIsPixelOpaqueAtPoint`) would make the top layer (id 1)
the first pixel-opaque bounding-box hit. -/
theorem selectLayerAt_flip_counterexample :
    isPointInMovieLayer flippedLayer 25 0 ∧
    ¬ isPixelOpaqueAtPoint flippedLayer 25 0 ∧
    specIsPixelOpaqueAtPoint flippedLayer 25 0 ∧
    (selectLayerAt [flippedLayer, opaqueLayer] 25 0).map GeoLayer.id =
      some 2 ∧
    some flippedLayer.id ≠
      (selectLayerAt [flippedLayer, opaqueLayer] 25 0).map GeoLayer.id := by
  have hcos : Real.cos (rad (-(0 : ℝ))) = 1 := by
    rw [neg_zero, rad_zero, Real.cos_zero]
  have hsin : Real.sin (rad (-(0 : ℝ))) = 0 := by
    rw [neg_zero, rad_zero, Real.sin_zero]
  have hfl75 : ⌊(((25 : ℝ) - 0) * 1 - (0 - 0) * 0 + 100 / 2) *
      (((100 : ℕ) : ℝ) / 100)⌋ = (75 : ℤ) := by
    norm_num
  have hbbF : isPointInMovieLayer flippedLayer 25 0 := by
    simp only [isPointInMovieLayer, getLayerMetrics, frameOffset, flippedLayer,
      hcos, hsin]
    norm_num
  have hopF : ¬ isPixelOpaqueAtPoint flippedLayer 25 0 := by
    simp only [isPixelOpaqueAtPoint, flippedLayer, hcos, hsin]
    norm_num
  have hspecF : specIsPixelOpaqueAtPoint flippedLayer 25 0 := by
    simp only [specIsPixelOpaqueAtPoint, flippedLayer, hcos, hsin]
    norm_num
  have hbbO : isPointInMovieLayer opaqueLayer 25 0 := by
    simp only [isPointInMovieLayer, getLayerMetrics, frameOffset, opaqueLayer,
      resizeDemoLayer, hcos, hsin]
    norm_num
  have hopO : isPixelOpaqueAtPoint opaqueLayer 25 0 := by
    simp only [isPixelOpaqueAtPoint, opaqueLayer, resizeDemoLayer, hcos, hsin]
    norm_num
  have hsel : selectLayerAt [flippedLayer, opaqueLayer] 25 0 =
      some opaqueLayer := by
    rw [selectLayerAt]
    rw [show selectLayerLoop 25 0 [flippedLayer, opaqueLayer] none =
        selectLayerLoop 25 0 [opaqueLayer] (some flippedLayer) by
      simp [selectLayerLoop, hbbF, hopF, Option.orElse]]
    simp [selectLayerLoop, hbbO, hopO]
  refine ⟨hbbF, hopF, hspecF, ?_, ?_⟩
  · rw [hsel]
    rfl
  · rw [hsel]
    simp [flippedLayer, opaqueLayer, resizeDemoLayer]

/-! ## C5: proportional re-anchor after a background change -/

/-- Axis-aligned bounding box `{left, top, right, bottom}`. -/
structure BBox where
  left : ℝ
  top : ℝ
  right : ℝ
  bottom : ℝ

open scoped Classical in
/-- `getRotatedBoundingBox(layer)`: min/max over the four rotated corners of
the display rectangle; degenerate metrics give a point box at the center. -/
noncomputable def getRotatedBoundingBox (l : GeoLayer) : BBox :=
  let m := getLayerMetrics l
  if m.1 = 0 ∨ m.2 = 0 then ⟨l.x, l.y, l.x, l.y⟩
  else
    let c := Real.cos (rad l.rot)
    let s := Real.sin (rad l.rot)
    let halfW := m.1 / 2
    let halfH := m.2 / 2
    let x1 := l.x + (-halfW * c - -halfH * s)
    let y1 := l.y + (-halfW * s + -halfH * c)
    let x2 := l.x + (halfW * c - -halfH * s)
    let y2 := l.y + (halfW * s + -halfH * c)
    let x3 := l.x + (halfW * c - halfH * s)
    let y3 := l.y + (halfW * s + halfH * c)
    let x4 := l.x + (-halfW * c - halfH * s)
    let y4 := l.y + (-halfW * s + halfH * c)
    ⟨min (min (min x1 x2) x3) x4, min (min (min y1 y2) y3) y4,
     max (max (max x1 x2) x3) x4, max (max (max y1 y2) y3) y4⟩

/-- The proportional re-anchor assignments of `setBackground` for an image
layer: `size = propSize * newMasterDim`, `x = propX * newCanvasWidth`,
`y = propY * newCanvasHeight`, with `newMasterDim = sqrt(W*H)`. -/
noncomputable def reanchorLayer (l : GeoLayer) (W H : ℝ) : GeoLayer :=
  { l with
    size := l.propSize * Real.sqrt (W * H)
    x := l.propX * W
    y := l.propY * H }

open scoped Classical in
/-- The full per-layer re-layout of `setBackground` (image branch):
proportional re-anchor followed by the out-of-bounds auto-shift driven by
the rotated bounding box. -/
noncomputable def relayoutLayer (l : GeoLayer) (W H : ℝ) : GeoLayer :=
  let l1 := reanchorLayer l W H
  let bbox := getRotatedBoundingBox l1
  let dx := if bbox.left < 0 then -bbox.left
            else if W < bbox.right then W - bbox.right else 0
  let dy := if bbox.top < 0 then -bbox.top
            else if H < bbox.bottom then H - bbox.bottom else 0
  { l1 with x := l1.x + dx, y := l1.y + dy }

theorem relayoutLayer_of_fits (l : GeoLayer) (W H : ℝ)
    (hL : ¬ (getRotatedBoundingBox (reanchorLayer l W H)).left < 0)
    (hR : ¬ W < (getRotatedBoundingBox (reanchorLayer l W H)).right)
    (hT : ¬ (getRotatedBoundingBox (reanchorLayer l W H)).top < 0)
    (hB : ¬ H < (getRotatedBoundingBox (reanchorLayer l W H)).bottom) :
    relayoutLayer l W H = reanchorLayer l W H := by
  simp only [relayoutLayer, hL, hR, hT, hB, if_neg, if_false, add_zero]

/-- The demo layer of the spec's round-trip property: props (1/2, 1/2, 1/5)
on a 1000×800 canvas (master dimension `sqrt 800000`), base mipmap 100×80
with a full content frame, rotation 0. -/
noncomputable def reanchorDemoLayer : GeoLayer :=
  { id := 1, kind := .image, x := 500, y := 400, rot := 0
    size := (1/5) * Real.sqrt 800000, flipX := false, baseW := 100
    baseH := 80, frameX := 0, frameY := 0, frameW := 100, frameH := 80
    textW := 0, textH := 0, propX := 1/2, propY := 1/2, propSize := 1/5
    alphaAt := fun _ _ => 255 }

theorem sqrt2949120_bounds :
    (0 : ℝ) < Real.sqrt 2949120 ∧ Real.sqrt 2949120 ≤ 1718 := by
  constructor
  · exact Real.sqrt_pos.mpr (by norm_num)
  · calc Real.sqrt 2949120 ≤ Real.sqrt (1718 ^ 2) :=
        Real.sqrt_le_sqrt (by norm_num)
      _ = 1718 := Real.sqrt_sq (by norm_num)

/-- The re-anchored demo layer fits inside the 1920×1536 canvas: no
auto-shift occurs. -/
theorem reanchorDemo_fits :
    ¬ (getRotatedBoundingBox (reanchorLayer reanchorDemoLayer 1920 1536)).left < 0 ∧
    ¬ (1920 : ℝ) < (getRotatedBoundingBox (reanchorLayer reanchorDemoLayer 1920 1536)).right ∧
    ¬ (getRotatedBoundingBox (reanchorLayer reanchorDemoLayer 1920 1536)).top < 0 ∧
    ¬ (1536 : ℝ) < (getRotatedBoundingBox (reanchorLayer reanchorDemoLayer 1920 1536)).bottom := by
  obtain ⟨hpos, hle⟩ := sqrt2949120_bounds
  have harg : ((1920 : ℝ) * 1536) = 2949120 := by norm_num
  have hcos : Real.cos (rad 0) = 1 := by rw [rad_zero, Real.cos_zero]
  have hsin : Real.sin (rad 0) = 0 := by rw [rad_zero, Real.sin_zero]
  simp only [getRotatedBoundingBox, reanchorLayer, reanchorDemoLayer,
    getLayerMetrics, harg, hcos, hsin]
  norm_num
  refine ⟨⟨⟨?_, ?_⟩, ?_⟩, ⟨?_, ?_⟩, ⟨?_, ?_⟩, ?_, ?_⟩ <;> linarith

theorem sqrt_2949120_eq : Real.sqrt ((1920 : ℝ) * 1536) =
    (48 / 25) * Real.sqrt 800000 := by
  rw [show ((1920 : ℝ) * 1536) = (48 / 25) ^ 2 * 800000 by norm_num]
  rw [Real.sqrt_mul (by positivity) 800000]
  rw [Real.sqrt_sq (by norm_num)]

/-- C5 counterexample. Changing the background to a 2000×1600 image does not
make the canvas 2000×1600: `setBackground` caps the width at
`MAX_CANVAS_WIDTH = 1920`, giving a 1920×1536 canvas, and the re-layout puts
the propX=propY=1/2, propSize=1/5 layer at (960, 768) — not (1000, 800) —
with its size multiplied by sqrt(1920*1536)/sqrt(1000*800) = 48/25 = 1.92,
not 2. -/
theorem reanchor_cap_counterexample :
    setBackgroundCanvasDims 2000 1600 0 = (1920, 1536) ∧
    ((1920 : ℤ), (1536 : ℤ)) ≠ ((2000 : ℤ), (1600 : ℤ)) ∧
    (relayoutLayer reanchorDemoLayer 1920 1536).x = 960 ∧
    (960 : ℝ) ≠ 1000 ∧
    (relayoutLayer reanchorDemoLayer 1920 1536).size =
      (48 / 25) * reanchorDemoLayer.size ∧
    (48 / 25 : ℝ) ≠ 2 := by
  obtain ⟨hL, hR, hT, hB⟩ := reanchorDemo_fits
  have h := relayoutLayer_of_fits reanchorDemoLayer 1920 1536 hL hR hT hB
  refine ⟨?_, by norm_num, ?_, by norm_num, ?_, by norm_num⟩
  · simp only [setBackgroundCanvasDims, masterDims, canvasDims]
    norm_num [jsRound]
  · rw [h]
    show reanchorDemoLayer.propX * 1920 = 960
    rw [show reanchorDemoLayer.propX = 1 / 2 from rfl]
    norm_num
  · rw [h]
    show reanchorDemoLayer.propSize * Real.sqrt ((1920 : ℝ) * 1536) = _
    rw [sqrt_2949120_eq]
    rw [show reanchorDemoLayer.propSize = 1 / 5 from rfl,
      show reanchorDemoLayer.size = (1 / 5) * Real.sqrt 800000 from rfl]
    ring

/-- C5 (amended). Re-layout after a background change is driven by the
proportional fields: whenever the re-anchored layer fits inside the new
canvas (no out-of-bounds auto-shift), the layer lands at
`(propX*W, propY*H)` with size `propSize*sqrt(W*H)`; and a 2000×1600
background yields a 1920×1536 canvas (width capped at 1920), so the spec's
example layer lands at (960, 768) with size multiplied by 1.92. -/
theorem relayout_proportional (l : GeoLayer) (W H : ℝ)
    (hL : ¬ (getRotatedBoundingBox (reanchorLayer l W H)).left < 0)
    (hR : ¬ W < (getRotatedBoundingBox (reanchorLayer l W H)).right)
    (hT : ¬ (getRotatedBoundingBox (reanchorLayer l W H)).top < 0)
    (hB : ¬ H < (getRotatedBoundingBox (reanchorLayer l W H)).bottom) :
    (relayoutLayer l W H).x = l.propX * W ∧
    (relayoutLayer l W H).y = l.propY * H ∧
    (relayoutLayer l W H).size = l.propSize * Real.sqrt (W * H) ∧
    setBackgroundCanvasDims 2000 1600 0 = (1920, 1536) := by
  have h := relayoutLayer_of_fits l W H hL hR hT hB
  rw [h]
  refine ⟨rfl, rfl, rfl, ?_⟩
  simp only [setBackgroundCanvasDims, masterDims, canvasDims]
  norm_num [jsRound]

/-- Witness for C5: the demo layer on the capped 1920×1536 canvas lands at
(960, 768) with size 48/25 of the original. -/
theorem relayout_proportional_witness :
    (relayoutLayer reanchorDemoLayer 1920 1536).x = 960 ∧
    (relayoutLayer reanchorDemoLayer 1920 1536).y = 768 ∧
    (relayoutLayer reanchorDemoLayer 1920 1536).size =
      (48 / 25) * ((1 / 5) * Real.sqrt 800000) := by
  obtain ⟨hL, hR, hT, hB⟩ := reanchorDemo_fits
  have h := relayout_proportional reanchorDemoLayer 1920 1536 hL hR hT hB
  refine ⟨?_, ?_, ?_⟩
  · rw [h.1, show reanchorDemoLayer.propX = 1 / 2 from rfl]
    norm_num
  · rw [h.2.1, show reanchorDemoLayer.propY = 1 / 2 from rfl]
    norm_num
  · rw [h.2.2.1, sqrt_2949120_eq,
      show reanchorDemoLayer.propSize = 1 / 5 from rfl]
    ring

/-! ## C6, C7: effect-cache building (`updateLayerCache` and the worker's
`renderLayer`) -/

/-- What `updateLayerCache` leaves in `layer.cache`: marked invalid (early
return for an image layer with no usable base mipmap), a valid zero-sized
canvas (degenerate content), or a valid canvas of the given size with the
content rectangle starting at `contentLeft` (equal on both axes since the
draw is centered). -/
inductive CacheOutcome
  | invalid
  | degenerate
  | built (canvasWidth canvasHeight contentLeft : ℚ)
deriving DecidableEq, Repr

/-- The padding computation of `updateLayerCache`:
`(blur*2 + max(|offsetX|,|offsetY|))` when the shadow is enabled, plus
`border.width*2` for an image layer with border enabled. -/
def cachePadding (kind : LayerKind) (shadow : Shadow) (border : Border) : ℚ :=
  (if shadow.enabled then
    shadow.blur * 2 + max |shadow.offsetX| |shadow.offsetY| else 0) +
  (if kind = LayerKind.image ∧ border.enabled then border.width * 2 else 0)

/-- The cache-geometry core of `updateLayerCache` once the content dimensions
are known: degenerate content gives a valid zero-sized canvas; otherwise the
canvas is `content + 2*padding` per axis with the content centered (drawn at
`translate(cacheWidth/2, cacheHeight/2)` then offset by `-content/2`, so its
left/top edge sits at `padding`). -/
def mkCacheOutcome (kind : LayerKind) (shadow : Shadow) (border : Border)
    (contentWidth contentHeight : ℚ) : CacheOutcome :=
  if contentWidth ≤ 0 ∨ contentHeight ≤ 0 then .degenerate
  else
    let padding := cachePadding kind shadow border
    let cacheWidth := contentWidth + padding * 2
    let cacheHeight := contentHeight + padding * 2
    .built cacheWidth cacheHeight (cacheWidth / 2 - contentWidth / 2)

/-- The cache-building input: layer kind, base-mipmap dimensions (image) or
measured text-block metrics (text), and the effect settings. -/
structure CacheInput where
  kind : LayerKind
  mipmapDims : List (ℕ × ℕ)
  textWidth : ℚ
  textHeight : ℚ
  shadow : Shadow
  border : Border
deriving DecidableEq, Repr

/-- `updateLayerCache(layer)`: an image layer with no mipmaps or a zero-width
base is marked invalid and the function returns; otherwise the content
dimensions are the base-mipmap dimensions (image) or the measured text block
(text), and the cache geometry is built by `mkCacheOutcome`. -/
def updateLayerCache (l : CacheInput) : CacheOutcome :=
  match l.kind with
  | .image =>
    match l.mipmapDims with
    | [] => .invalid
    | (w, h) :: _ =>
      if w = 0 then .invalid
      else mkCacheOutcome .image l.shadow l.border (w : ℚ) (h : ℚ)
  | .text => mkCacheOutcome .text l.shadow l.border l.textWidth l.textHeight

/-- The per-layer step of `drawLayers`: rebuild the cache, then draw the
cached bitmap only when the (fresh) cache canvas has positive width. -/
def drawCachedLayer {S : Type} (blit : S → CacheInput → S) (s : S)
    (l : CacheInput) : S :=
  match updateLayerCache l with
  | .built w _ _ => if 0 < w then blit s l else s
  | _ => s

/-- `renderLayer(layerData)` of the worker (`layer-renderer.js`): padding
uses `blur * 2.5`, the cache dimensions are `Math.round`ed, and zero or
negative cache dimensions throw `"Invalid cache dimensions."` instead of
producing a degenerate valid cache. -/
def renderLayer (kind : LayerKind) (shadow : Shadow) (border : Border)
    (contentWidth contentHeight : ℚ) : Except String (ℤ × ℤ) :=
  let padding :=
    (if shadow.enabled then
      shadow.blur * (5 / 2) + max |shadow.offsetX| |shadow.offsetY| else 0) +
    (if kind = LayerKind.image ∧ border.enabled then border.width * 2 else 0)
  let cacheWidth := jsRound (contentWidth + padding * 2)
  let cacheHeight := jsRound (contentHeight + padding * 2)
  if cacheWidth ≤ 0 ∨ cacheHeight ≤ 0 then
    .error "Invalid cache dimensions."
  else .ok (cacheWidth, cacheHeight)

/-- A shadow with blur 10 and no offsets, enabled. -/
def blurShadow : Shadow := ⟨true, "#000", 10, 0, 0⟩

/-- A disabled border. -/
def offBorder : Border := ⟨false, "#000", 0⟩

/-- C6 counterexample. For an enabled shadow with blur 10 and zero offsets
on 100×100 image content, the claimed padding `2*blur + max(|ox|,|oy|)` is
20, giving a 140×140 cache — but the worker `renderLayer` pads with
`2.5*blur`, producing a 150×150 surface. -/
theorem renderLayer_padding_not_2blur :
    renderLayer .image blurShadow offBorder 100 100 = .ok (150, 150) ∧
    (2 * blurShadow.blur + max |blurShadow.offsetX| |blurShadow.offsetY|) = 20 ∧
    (100 + 2 * (20 : ℚ), 100 + 2 * (20 : ℚ)) ≠ ((150 : ℚ), (150 : ℚ)) := by
  refine ⟨?_, by norm_num [blurShadow], by norm_num⟩
  simp only [renderLayer, blurShadow, offBorder]
  norm_num [jsRound]

/-- C6 (amended). For positive content dimensions the main-thread
`updateLayerCache` builds a valid cache surface of exactly
`content + 2*padding` per axis with
`padding = 2*blur + max(|offsetX|,|offsetY|)` (when the shadow is enabled)
plus `2*border.width` (image layer with enabled border), and the content is
centered (its left/top edge sits at `padding`); the worker `renderLayer`
instead pads with an extra `blur/2` (i.e. `2.5*blur`) and rounds the surface
dimensions, returning them when they are positive. -/
theorem cache_padding_spec (kind : LayerKind) (shadow : Shadow)
    (border : Border) (contentWidth contentHeight : ℚ)
    (hW : 0 < contentWidth) (hH : 0 < contentHeight) :
    mkCacheOutcome kind shadow border contentWidth contentHeight =
      .built
        (contentWidth + 2 * ((if shadow.enabled then
            2 * shadow.blur + max |shadow.offsetX| |shadow.offsetY| else 0) +
          (if kind = LayerKind.image ∧ border.enabled then
            2 * border.width else 0)))
        (contentHeight + 2 * ((if shadow.enabled then
            2 * shadow.blur + max |shadow.offsetX| |shadow.offsetY| else 0) +
          (if kind = LayerKind.image ∧ border.enabled then
            2 * border.width else 0)))
        ((if shadow.enabled then
            2 * shadow.blur + max |shadow.offsetX| |shadow.offsetY| else 0) +
          (if kind = LayerKind.image ∧ border.enabled then
            2 * border.width else 0)) ∧
    (¬ (jsRound (contentWidth + (cachePadding kind shadow border +
          (if shadow.enabled then shadow.blur / 2 else 0)) * 2) ≤ 0 ∨
        jsRound (contentHeight + (cachePadding kind shadow border +
          (if shadow.enabled then shadow.blur / 2 else 0)) * 2) ≤ 0) →
      renderLayer kind shadow border contentWidth contentHeight =
        .ok (jsRound (contentWidth + (cachePadding kind shadow border +
              (if shadow.enabled then shadow.blur / 2 else 0)) * 2),
             jsRound (contentHeight + (cachePadding kind shadow border +
              (if shadow.enabled then shadow.blur / 2 else 0)) * 2))) := by
  have hpad : cachePadding kind shadow border =
      (if shadow.enabled then
        2 * shadow.blur + max |shadow.offsetX| |shadow.offsetY| else 0) +
      (if kind = LayerKind.image ∧ border.enabled then
        2 * border.width else 0) := by
    unfold cachePadding
    by_cases hs : shadow.enabled <;>
      by_cases hb : kind = LayerKind.image ∧ border.enabled <;>
      simp [hs, hb] <;> ring
  have hwp : (if shadow.enabled then
        shadow.blur * (5 / 2) + max |shadow.offsetX| |shadow.offsetY|
      else 0) +
      (if kind = LayerKind.image ∧ border.enabled then
        border.width * 2 else 0) =
      cachePadding kind shadow border +
        (if shadow.enabled then shadow.blur / 2 else 0) := by
    unfold cachePadding
    by_cases hs : shadow.enabled <;>
      by_cases hb : kind = LayerKind.image ∧ border.enabled <;>
      simp [hs, hb] <;> ring
  constructor
  · have hnd : ¬ (contentWidth ≤ 0 ∨ contentHeight ≤ 0) := by
      push_neg
      exact ⟨hW, hH⟩
    simp only [mkCacheOutcome, if_neg hnd, ← hpad]
    congr 1 <;> ring
  · intro hok
    simp only [renderLayer, hwp, if_neg hok]

/-- Witness for C6: blur-10 shadow, no border, 100×100 content: padding 20,
cache 140×140 with the content starting at x = 20 on the main thread; the
worker yields 150×150. -/
theorem cache_padding_spec_witness :
    mkCacheOutcome .image blurShadow offBorder 100 100 =
      .built 140 140 20 ∧
    renderLayer .image blurShadow offBorder 100 100 = .ok (150, 150) := by
  have h := cache_padding_spec .image blurShadow offBorder 100 100
    (by norm_num) (by norm_num)
  constructor
  · rw [h.1]
    norm_num [blurShadow, offBorder]
  · have hok := h.2 (by norm_num [cachePadding, blurShadow, offBorder, jsRound])
    rw [hok]
    norm_num [cachePadding, blurShadow, offBorder, jsRound]

/-- The `isValid` flag `updateLayerCache` leaves on the cache slot: false
for the early-return branch, true otherwise (including the degenerate
zero-sized canvas). -/
def CacheOutcome.isValidFlag : CacheOutcome → Bool
  | .invalid => false
  | .degenerate => true
  | .built _ _ _ => true

/-- A disabled shadow. -/
def noShadow : Shadow := ⟨false, "#000", 0, 0, 0⟩

/-- An empty text layer (measured text block 0×0). -/
def emptyTextInput : CacheInput := ⟨.text, [], 0, 0, noShadow, offBorder⟩

/-- An image layer whose base mipmap has zero width. -/
def zeroMipInput : CacheInput := ⟨.image, [(0, 50)], 0, 0, noShadow, offBorder⟩

/-- C7 counterexample. Zero-area content does not always produce a valid
empty cache with no error: the worker `renderLayer` throws
`"Invalid cache dimensions."` on it, and an image layer whose base mipmap
has zero width is marked `isValid = false` (early return), not valid. -/
theorem degenerate_cache_counterexample :
    renderLayer .image noShadow offBorder 0 100 =
      .error "Invalid cache dimensions." ∧
    updateLayerCache zeroMipInput = .invalid ∧
    (updateLayerCache zeroMipInput).isValidFlag = false := by
  refine ⟨?_, rfl, rfl⟩
  simp only [renderLayer, noShadow, offBorder]
  norm_num [jsRound]

/-- C7 (amended). Degenerate cache builds: (a) in `updateLayerCache`,
zero-or-negative derived content dimensions give a valid zero-sized cache
(`degenerate`) and no error, (b) except that an image layer with no mipmaps
or a zero-width base mipmap is marked invalid (also without error), (c) the
draw step renders nothing for either outcome, and (d) the worker
`renderLayer` instead throws `"Invalid cache dimensions."` when its rounded
cache dimensions are zero or negative (in particular for zero-area content
with all effects disabled). -/
theorem degenerate_cache_spec :
    (∀ (kind : LayerKind) (shadow : Shadow) (border : Border) (cw ch : ℚ),
      cw ≤ 0 ∨ ch ≤ 0 →
      mkCacheOutcome kind shadow border cw ch = .degenerate ∧
        (mkCacheOutcome kind shadow border cw ch).isValidFlag = true) ∧
    (∀ l : CacheInput, l.kind = LayerKind.image →
      (l.mipmapDims = [] ∨
        ∃ h rest, l.mipmapDims = (0, h) :: rest) →
      updateLayerCache l = .invalid ∧
        (updateLayerCache l).isValidFlag = false) ∧
    (∀ (S : Type) (blit : S → CacheInput → S) (s : S) (l : CacheInput),
      updateLayerCache l = .degenerate ∨ updateLayerCache l = .invalid →
      drawCachedLayer blit s l = s) ∧
    (∀ (kind : LayerKind) (shadow : Shadow) (border : Border) (cw ch : ℚ),
      shadow.enabled = false → border.enabled = false → cw ≤ 0 →
      renderLayer kind shadow border cw ch =
        .error "Invalid cache dimensions.") := by
  refine ⟨?_, ?_, ?_, ?_⟩
  · intro kind shadow border cw ch hdeg
    have h : mkCacheOutcome kind shadow border cw ch = .degenerate := by
      simp only [mkCacheOutcome, if_pos hdeg]
    exact ⟨h, by rw [h]; rfl⟩
  · intro l hkind hdims
    have h : updateLayerCache l = .invalid := by
      rcases hdims with hnil | ⟨hh, rest, hcons⟩
      · simp [updateLayerCache, hkind, hnil]
      · simp [updateLayerCache, hkind, hcons]
    exact ⟨h, by rw [h]; rfl⟩
  · intro S blit s l hout
    rcases hout with h | h <;> simp [drawCachedLayer, h]
  · intro kind shadow border cw ch hs hb hcw
    have hpad : ((if shadow.enabled then
        shadow.blur * (5 / 2) + max |shadow.offsetX| |shadow.offsetY|
        else 0) +
        (if kind = LayerKind.image ∧ border.enabled then
          border.width * 2 else 0)) = 0 := by
      simp [hs, hb]
    have hfl : jsRound (cw + 0 * 2) ≤ 0 := by
      unfold jsRound
      have hlt : cw + 0 * 2 + 1 / 2 < ((1 : ℤ) : ℚ) := by
        push_cast
        linarith
      have h2 : ⌊cw + 0 * 2 + 1 / 2⌋ < 1 := Int.floor_lt.mpr hlt
      omega
    simp only [renderLayer, hpad]
    rw [if_pos (Or.inl hfl)]

/-- Witness for C7: the empty text layer gets a valid degenerate cache and
draws nothing; the zero-width-mipmap image layer is marked invalid; the
worker errors on the same zero-area content. -/
theorem degenerate_cache_spec_witness :
    updateLayerCache emptyTextInput = .degenerate ∧
    (updateLayerCache emptyTextInput).isValidFlag = true ∧
    updateLayerCache zeroMipInput = .invalid ∧
    drawCachedLayer (fun (t : List ℕ) _ => t ++ [1]) [] emptyTextInput = [] ∧
    renderLayer .text noShadow offBorder 0 0 =
      .error "Invalid cache dimensions." := by
  have h := degenerate_cache_spec
  have h1 := h.1 .text noShadow offBorder 0 0 (Or.inl le_rfl)
  have hemp : updateLayerCache emptyTextInput =
      mkCacheOutcome .text noShadow offBorder 0 0 := rfl
  have h2 := h.2.1 zeroMipInput rfl (Or.inr ⟨50, [], rfl⟩)
  have h4 := h.2.2.2 .text noShadow offBorder 0 0 rfl rfl le_rfl
  refine ⟨?_, ?_, h2.1, ?_, h4⟩
  · rw [hemp, h1.1]
  · rw [hemp, h1.1]
    rfl
  · exact h.2.2.1 (List ℕ) (fun t _ => t ++ [1]) [] emptyTextInput
      (Or.inl (by rw [hemp, h1.1]))

end Compositor
